import Mathlib

/-!
Shallow embedding of the NetworkNeuron core (incentive ledger, traffic
router, path optimizer) translated from src/incentives/incentives.js,
src/routing/router.js and src/crypto/crypto.js.

Modelling conventions:
* JS numbers are embedded as exact rationals.
* A JS Map is an association list in insertion order with unique keys;
  Map.get with the usual "x || default" idiom is mapGetD, Map.set is
  mapSet (replace in place, append when fresh), Map.delete is mapDelete.
* The JS "x || d" on numbers (d used when x is 0 or undefined) is jsOr.
* crypto.sign / crypto.verify (RSA-SHA256, forge) are idealized: a
  signature records the exact signed string and the private key, and
  verification succeeds iff the recomputed string equals the signed one
  and the public key is the one paired with the signing private key.
* crypto.generateRandomString (used only to mint fresh ids) is modelled
  by a deterministic counter threaded through the state.
-/

set_option maxRecDepth 100000

namespace NetworkNeuron

/-- JS truthiness-based defaulting on numbers: the expression x || d. -/
def jsOr (x d : ℚ) : ℚ := if x = 0 then d else x

/-- JS Math.min on two numbers. -/
def mathMin (a b : ℚ) : ℚ := if a ≤ b then a else b

/-- JS Math.max on two numbers. -/
def mathMax (a b : ℚ) : ℚ := if b ≤ a then a else b

/-- Lookup in a JS Map modelled as an association list: Map.get. -/
def mapFind? {κ α : Type} [DecidableEq κ] : List (κ × α) → κ → Option α
  | [], _ => none
  | p :: rest, k => if p.1 = k then some p.2 else mapFind? rest k

/-- Map.get with a default value (the get(k) || d idiom for maps). -/
def mapGetD {κ α : Type} [DecidableEq κ] (m : List (κ × α)) (k : κ) (d : α) : α :=
  (mapFind? m k).getD d

/-- Map.set: replace the entry with the key in place, else append. -/
def mapSet {κ α : Type} [DecidableEq κ] : List (κ × α) → κ → α → List (κ × α)
  | [], k, v => [(k, v)]
  | p :: rest, k, v => if p.1 = k then (k, v) :: rest else p :: mapSet rest k v

/-- Map.delete: remove the entry with the key (keys are unique in a Map). -/
def mapDelete {κ α : Type} [DecidableEq κ] (m : List (κ × α)) (k : κ) : List (κ × α) :=
  m.filter (fun p => decide (p.1 ≠ k))

/-! ### Idealized crypto (src/crypto/crypto.js)

CryptoManager.sign produces an RSA-SHA256 signature over the given
string; CryptoManager.verify checks a signature over the given string
against a public key.  The idealization records the signed string. -/

/-- The public key PEM paired with a private key PEM (keys are generated
together by generateKeyPair; the pairing is modelled syntactically). -/
def pubOfPriv (privateKeyPem : String) : String := privateKeyPem ++ ".pub"

/-- A detached signature: the exact signed bytes and the signing key. -/
structure Sig where
  data : String
  key : String
deriving DecidableEq, Repr

/-- CryptoManager.sign. -/
def sign (data : String) (privateKeyPem : String) : Sig := ⟨data, privateKeyPem⟩

/-- CryptoManager.verify: true iff the signature was produced over
exactly these bytes by the private key paired with this public key. -/
def verify (data : String) (signature : Sig) (publicKeyPem : String) : Bool :=
  decide (signature.data = data ∧ pubOfPriv signature.key = publicKeyPem)

/-! ### Incentive system (src/incentives/incentives.js) -/

/-- The configuration fields of IncentiveSystem that its operations read. -/
structure IncentiveConfig where
  rewardRate : ℚ
  minStake : ℚ
  maxRewardPerDay : ℚ
  privateKey : String
  publicKey : String
deriving DecidableEq, Repr

/-- Transaction kinds recorded by the incentive system. -/
inductive TxType
  | stake
  | unstake
  | reward
deriving DecidableEq, Repr

/-- The string a TxType interpolates to in a JS template literal. -/
def TxType.str : TxType → String
  | .stake => "stake"
  | .unstake => "unstake"
  | .reward => "reward"

/-- Rendering of a JS number into a template literal.  All amounts the
incentive operations interpolate here are integral in the claims. -/
def fmtAmount (q : ℚ) : String :=
  if q.den = 1 then toString q.num else toString q.num ++ "/" ++ toString q.den

/-- Metadata attached to reward transactions. -/
structure TxMeta where
  period : String
  bandwidthProvided : ℚ
  sessionsServed : ℚ
deriving DecidableEq, Repr

/-- A ledger transaction as recorded by recordTransaction. -/
structure Transaction where
  type : TxType
  «from» : String
  «to» : String
  amount : ℚ
  signature : Sig
  metadata : Option TxMeta
  id : Nat
deriving DecidableEq, Repr

/-- Rolling performance metrics stored in nodePerformance. -/
structure Performance where
  uptime : ℚ
  averageLatency : ℚ
  reputation : ℚ
deriving DecidableEq, Repr

/-- The performance record read for a node absent from the map
(the get(nodeId) || {} idiom followed by field || 0 defaults). -/
def emptyPerformance : Performance := ⟨0, 0, 0⟩

/-- The mutable state of an IncentiveSystem instance. -/
structure IncentiveState where
  config : IncentiveConfig
  balances : List (String × ℚ)
  stakes : List (String × ℚ)
  rewardsLog : List (String × ℚ)
  transactions : List Transaction
  nodePerformance : List (String × Performance)
  bandwidthProvided : List (String × ℚ)
  sessionsServed : List (String × ℚ)
  nextTxId : Nat
deriving DecidableEq, Repr

/-- getBalance: this.balances.get(nodeId) || 0. -/
def getBalance (st : IncentiveState) (nodeId : String) : ℚ :=
  jsOr (mapGetD st.balances nodeId 0) 0

/-- getStake: this.stakes.get(nodeId) || 0. -/
def getStake (st : IncentiveState) (nodeId : String) : ℚ :=
  jsOr (mapGetD st.stakes nodeId 0) 0

/-- recordTransaction: assign a fresh id, push, keep the last 10000. -/
def recordTransaction (st : IncentiveState) (tx : Transaction) : IncentiveState :=
  let txs := st.transactions ++ [{ tx with id := st.nextTxId }]
  let txs := if 10000 < txs.length then txs.drop (txs.length - 10000) else txs
  { st with transactions := txs, nextTxId := st.nextTxId + 1 }

/-- The failure kinds surfaced by the ledger operations.  The source
throws NetworkNeuronError values with these codes and re-wraps them in
an outer catch (STAKING_ERROR and so on) that preserves the message;
the embedding keeps the underlying kind. -/
inductive LedgerError
  | insufficientBalance
  | minStakeNotMet
  | insufficientStake
  | insufficientRewardPool
deriving DecidableEq, Repr

/-- The string signed for a stake transaction in stakeTokens. -/
def stakeSignMsg (nodeId : String) (amount : ℚ) : String :=
  nodeId ++ ":" ++ fmtAmount amount ++ ":stake"

/-- The string signed for an unstake transaction in unstakeTokens. -/
def unstakeSignMsg (nodeId : String) (amount : ℚ) : String :=
  nodeId ++ ":" ++ fmtAmount amount ++ ":unstake"

/-- The string signed for a reward transaction in distributeReward. -/
def rewardSignMsg (nodeId : String) (amount : ℚ) : String :=
  "reward:" ++ nodeId ++ ":" ++ fmtAmount amount

/-- stakeTokens. -/
def stakeTokens (st : IncentiveState) (nodeId : String) (amount : ℚ) :
    Except LedgerError IncentiveState :=
  let currentBalance := getBalance st nodeId
  let currentStake := getStake st nodeId
  if currentBalance < amount then
    .error .insufficientBalance
  else if amount < st.config.minStake then
    .error .minStakeNotMet
  else
    let st1 := { st with
      balances := mapSet st.balances nodeId (currentBalance - amount)
      stakes := mapSet st.stakes nodeId (jsOr currentStake 0 + amount) }
    .ok (recordTransaction st1
      { type := .stake, «from» := nodeId, «to» := "stake_pool", amount := amount
        signature := sign (stakeSignMsg nodeId amount) st.config.privateKey
        metadata := none, id := 0 })

/-- unstakeTokens. -/
def unstakeTokens (st : IncentiveState) (nodeId : String) (amount : ℚ) :
    Except LedgerError IncentiveState :=
  let currentStake := getStake st nodeId
  if currentStake < amount then
    .error .insufficientStake
  else
    let st1 := { st with
      balances := mapSet st.balances nodeId (getBalance st nodeId + amount)
      stakes := mapSet st.stakes nodeId (currentStake - amount) }
    .ok (recordTransaction st1
      { type := .unstake, «from» := "stake_pool", «to» := nodeId, amount := amount
        signature := sign (unstakeSignMsg nodeId amount) st.config.privateKey
        metadata := none, id := 0 })

/-- The record returned by calculateRewards. -/
structure RewardResult where
  nodeId : String
  amount : ℚ
  period : String
  bandwidthProvided : ℚ
  sessionsServed : ℚ
  stake : ℚ
deriving DecidableEq, Repr

/-- calculateRewards. -/
def calculateRewards (st : IncentiveState) (nodeId : String) (period : String) :
    RewardResult :=
  let performance := mapGetD st.nodePerformance nodeId emptyPerformance
  let bandwidthProvided := jsOr (mapGetD st.bandwidthProvided nodeId 0) 0
  let sessionsServed := jsOr (mapGetD st.sessionsServed nodeId 0) 0
  let stake := jsOr (getStake st nodeId) 0
  if stake < st.config.minStake then
    { nodeId := nodeId, amount := 0, period := period
      bandwidthProvided := 0, sessionsServed := 0, stake := stake }
  else
    let bandwidthReward := bandwidthProvided * st.config.rewardRate
    let stakeMultiplier := mathMin (1 + (stake / st.config.minStake) * 0.5) 2
    let uptimeBonus := jsOr performance.uptime 0 / 100
    let latencyBonus := mathMax 0 (1 - jsOr performance.averageLatency 0 / 1000)
    let totalReward := bandwidthReward * stakeMultiplier * uptimeBonus
      * latencyBonus * jsOr sessionsServed 1
    let cappedReward := mathMin totalReward st.config.maxRewardPerDay
    { nodeId := nodeId, amount := cappedReward, period := period
      bandwidthProvided := bandwidthProvided, sessionsServed := sessionsServed
      stake := stake }

/-- distributeReward (single reward): skip silently when the pool cannot
cover the amount, else move tokens, record a signed transaction and a
reward record (the reward map key nodeId:Date.now() is modelled by
appending to a list). -/
def distributeReward (st : IncentiveState) (reward : RewardResult) : IncentiveState :=
  let rewardPoolBalance := getBalance st "reward_pool"
  if rewardPoolBalance < reward.amount then st
  else
    let b1 := mapSet st.balances "reward_pool" (rewardPoolBalance - reward.amount)
    let st1 := { st with balances := b1 }
    let st2 := { st1 with
      balances := mapSet b1 reward.nodeId (getBalance st1 reward.nodeId + reward.amount) }
    let st3 := recordTransaction st2
      { type := .reward, «from» := "reward_pool", «to» := reward.nodeId
        amount := reward.amount
        signature := sign (rewardSignMsg reward.nodeId reward.amount) st.config.privateKey
        metadata := some ⟨reward.period, reward.bandwidthProvided, reward.sessionsServed⟩
        id := 0 }
    { st3 with rewardsLog := st3.rewardsLog ++ [(reward.nodeId, reward.amount)] }

/-- The value returned by distributeRewards. -/
structure DistributionResult where
  period : String
  rewards : List RewardResult
  totalDistributed : ℚ
deriving DecidableEq, Repr

/-- distributeRewards: compute a reward for every node whose stake map
entry is at least minStake (in stakes-map insertion order, with the
snapshot frozen before any payment), then pay each positive reward. -/
def distributeRewards (st : IncentiveState) (period : String) :
    Except LedgerError (IncentiveState × DistributionResult) :=
  let totalRewardPool := getBalance st "reward_pool"
  if totalRewardPool ≤ 0 then
    .error .insufficientRewardPool
  else
    let rewards := (st.stakes.filter (fun p => decide (st.config.minStake ≤ p.2))).map
      (fun p => calculateRewards st p.1 period)
    let st1 := rewards.foldl
      (fun s r => if 0 < r.amount then distributeReward s r else s) st
    .ok (st1, { period := period, rewards := rewards
                totalDistributed := (rewards.map (fun r => r.amount)).sum })

/-- recordBandwidthProvided: accumulate forwarded bytes for a node. -/
def recordBandwidthProvided (st : IncentiveState) (nodeId : String) (bytes : ℚ) :
    IncentiveState :=
  let currentBandwidth := jsOr (mapGetD st.bandwidthProvided nodeId 0) 0
  { st with bandwidthProvided := mapSet st.bandwidthProvided nodeId (currentBandwidth + bytes) }

/-- recordSessionServed: count one more served session for a node. -/
def recordSessionServed (st : IncentiveState) (nodeId : String) : IncentiveState :=
  let currentSessions := jsOr (mapGetD st.sessionsServed nodeId 0) 0
  { st with sessionsServed := mapSet st.sessionsServed nodeId (currentSessions + 1) }

/-- validateTransaction: recompute the canonical string
from:to:amount:type and verify the stored signature against the
coordinator public key. -/
def validateTransaction (st : IncentiveState) (tx : Transaction) : Bool :=
  let message :=
    tx.«from» ++ ":" ++ tx.«to» ++ ":" ++ fmtAmount tx.amount ++ ":" ++ tx.type.str
  verify message tx.signature st.config.publicKey

/-! ### Basic lemmas about the JS-semantics helpers -/

theorem jsOr_zero (x : ℚ) : jsOr x 0 = x := by
  rw [jsOr]
  split <;> simp_all

theorem mathMin_eq_min (a b : ℚ) : mathMin a b = min a b := by
  rw [mathMin, min_def]

theorem mathMax_eq_max (a b : ℚ) : mathMax a b = max a b := by
  rw [mathMax, max_def]
  by_cases h1 : b ≤ a
  · by_cases h2 : a ≤ b
    · rw [if_pos h1, if_pos h2]
      exact le_antisymm h2 h1
    · rw [if_pos h1, if_neg h2]
  · rw [if_neg h1, if_pos (le_of_not_le h1)]

theorem mapFind?_mapSet_self {κ α : Type} [DecidableEq κ] (m : List (κ × α)) (k : κ) (v : α) :
    mapFind? (mapSet m k v) k = some v := by
  induction m with
  | nil => simp [mapSet, mapFind?]
  | cons p rest ih => by_cases h : p.1 = k <;> simp [mapSet, mapFind?, h, ih]

theorem mapFind?_mapSet_ne {κ α : Type} [DecidableEq κ] (m : List (κ × α)) (k k' : κ) (v : α)
    (h : k' ≠ k) : mapFind? (mapSet m k v) k' = mapFind? m k' := by
  induction m with
  | nil => simp [mapSet, mapFind?, Ne.symm h]
  | cons p rest ih =>
    by_cases hp : p.1 = k
    · subst hp
      simp [mapSet, mapFind?, Ne.symm h, h]
    · by_cases hp' : p.1 = k' <;> simp [mapSet, mapFind?, hp, hp', ih, h]

theorem mapGetD_mapSet_self {κ α : Type} [DecidableEq κ] (m : List (κ × α)) (k : κ) (v d : α) :
    mapGetD (mapSet m k v) k d = v := by
  rw [mapGetD, mapFind?_mapSet_self]
  rfl

theorem mapGetD_mapSet_ne {κ α : Type} [DecidableEq κ] (m : List (κ × α)) (k k' : κ) (v d : α)
    (h : k' ≠ k) : mapGetD (mapSet m k v) k' d = mapGetD m k' d := by
  rw [mapGetD, mapFind?_mapSet_ne m k k' v h, mapGetD]

theorem jsOr_natCast_one (k : ℕ) : jsOr (k : ℚ) 1 = ((max k 1 : ℕ) : ℚ) := by
  cases k with
  | zero => simp [jsOr]
  | succ k' =>
    rw [jsOr, if_neg (Nat.cast_ne_zero.mpr (Nat.succ_ne_zero k'))]
    rw [Nat.max_eq_left (Nat.succ_le_succ (Nat.zero_le k'))]

/-! ### Claim theorems for the incentive system -/

/-- C1: for every node whose stake meets the minimum, calculateRewards
returns bytes_forwarded·reward_rate · min(1 + (stake/min_stake)·0.5, 2)
· uptime/100 · max(0, 1 − avg_latency/1000) · max(sessions_served, 1),
clamped at max_reward_per_day: a raw value above the cap yields exactly
the cap, and a raw value at or below the cap is returned unchanged. -/
theorem c1_reward_formula (st : IncentiveState) (n period : String) (k : ℕ) (raw : ℚ)
    (hstake : st.config.minStake ≤ getStake st n)
    (hsess : mapGetD st.sessionsServed n 0 = (k : ℚ))
    (hraw : raw = mapGetD st.bandwidthProvided n 0 * st.config.rewardRate
      * min (1 + getStake st n / st.config.minStake * (0.5 : ℚ)) 2
      * ((mapGetD st.nodePerformance n emptyPerformance).uptime / 100)
      * max 0 (1 - (mapGetD st.nodePerformance n emptyPerformance).averageLatency / 1000)
      * ((max k 1 : ℕ) : ℚ)) :
    (calculateRewards st n period).amount = min raw st.config.maxRewardPerDay
    ∧ (st.config.maxRewardPerDay < raw →
        (calculateRewards st n period).amount = st.config.maxRewardPerDay)
    ∧ (raw ≤ st.config.maxRewardPerDay →
        (calculateRewards st n period).amount = raw) := by
  have hne : ¬ (jsOr (getStake st n) 0 < st.config.minStake) := by
    rw [jsOr_zero]
    exact not_lt.mpr hstake
  have hamount : (calculateRewards st n period).amount = min raw st.config.maxRewardPerDay := by
    simp only [calculateRewards]
    rw [if_neg hne]
    simp only [jsOr_zero, mathMin_eq_min, mathMax_eq_max, hsess, jsOr_natCast_one, hraw]
  refine ⟨hamount, fun h => ?_, fun h => ?_⟩
  · rw [hamount]
    exact min_eq_right (le_of_lt h)
  · rw [hamount]
    exact min_eq_left h

/-- A concrete incentive state (spec scenario S4) used as witness input. -/
def c1WitnessState : IncentiveState :=
  { config := { rewardRate := 0.1, minStake := 1000, maxRewardPerDay := 1000
                privateKey := "sk", publicKey := "sk.pub" }
    balances := [("reward_pool", 10000), ("alice", 5000)]
    stakes := [("alice", 5000)]
    rewardsLog := []
    transactions := []
    nodePerformance := [("alice", ⟨100, 50, 100⟩)]
    bandwidthProvided := [("alice", 100)]
    sessionsServed := [("alice", 5)]
    nextTxId := 0 }

theorem c1_reward_formula_witness :
    (calculateRewards c1WitnessState "alice" "daily").amount
      = min 95 c1WitnessState.config.maxRewardPerDay
    ∧ (c1WitnessState.config.maxRewardPerDay < 95 →
        (calculateRewards c1WitnessState "alice" "daily").amount
          = c1WitnessState.config.maxRewardPerDay)
    ∧ ((95 : ℚ) ≤ c1WitnessState.config.maxRewardPerDay →
        (calculateRewards c1WitnessState "alice" "daily").amount = 95) :=
  c1_reward_formula c1WitnessState "alice" "daily" 5 95
    (of_decide_eq_true (by with_unfolding_all rfl))
    (of_decide_eq_true (by with_unfolding_all rfl))
    (of_decide_eq_true (by with_unfolding_all rfl))

/-- C2: stakeTokens fails with the insufficient-balance error when the
node's balance is below the amount, fails with the minimum-stake error
when the amount is strictly below min_stake (an amount equal to
min_stake succeeds), and otherwise decreases the balance by the amount,
increases the stake by the amount, leaves all other nodes untouched and
appends exactly one signed stake transaction to the log. -/
theorem c2_stakeTokens_spec (st : IncentiveState) (n : String) (a : ℚ)
    (hlen : st.transactions.length ≤ 9999) :
    (getBalance st n < a → stakeTokens st n a = .error .insufficientBalance)
    ∧ (a ≤ getBalance st n → a < st.config.minStake →
        stakeTokens st n a = .error .minStakeNotMet)
    ∧ (a ≤ getBalance st n → st.config.minStake ≤ a →
        ∃ st', stakeTokens st n a = .ok st'
          ∧ getBalance st' n = getBalance st n - a
          ∧ getStake st' n = getStake st n + a
          ∧ (∀ m, m ≠ n → getBalance st' m = getBalance st m)
          ∧ (∀ m, m ≠ n → getStake st' m = getStake st m)
          ∧ st'.transactions = st.transactions ++
              [{ type := .stake, «from» := n, «to» := "stake_pool", amount := a
                 signature := sign (stakeSignMsg n a) st.config.privateKey
                 metadata := none, id := st.nextTxId }]) := by
  refine ⟨fun h => ?_, fun h1 h2 => ?_, fun h1 h2 => ?_⟩
  · rw [stakeTokens, if_pos h]
  · rw [stakeTokens, if_neg (not_lt.mpr h1), if_pos h2]
  · rw [stakeTokens, if_neg (not_lt.mpr h1), if_neg (not_lt.mpr h2)]
    refine ⟨_, rfl, ?_, ?_, ?_, ?_, ?_⟩
    · rw [recordTransaction]
      simp only [getBalance, jsOr_zero, mapGetD_mapSet_self]
    · rw [recordTransaction]
      simp only [getStake, jsOr_zero, mapGetD_mapSet_self]
    · intro m hm
      rw [recordTransaction]
      simp only [getBalance, jsOr_zero, mapGetD_mapSet_ne _ _ _ _ _ hm]
    · intro m hm
      rw [recordTransaction]
      simp only [getStake, jsOr_zero, mapGetD_mapSet_ne _ _ _ _ _ hm]
    · have hlt : ∀ tx : Transaction, ¬ (10000 < (st.transactions ++ [tx]).length) := by
        intro tx
        rw [List.length_append, List.length_singleton]
        omega
      simp only [recordTransaction, hlt, if_false]

/-- A concrete incentive state with a known balance, used as witness input. -/
def c2WitnessState : IncentiveState :=
  { config := { rewardRate := 0.1, minStake := 1000, maxRewardPerDay := 1000
                privateKey := "sk", publicKey := "sk.pub" }
    balances := [("alice", 10000)]
    stakes := []
    rewardsLog := []
    transactions := []
    nodePerformance := []
    bandwidthProvided := []
    sessionsServed := []
    nextTxId := 0 }

theorem c2_stakeTokens_spec_witness :
    (getBalance c2WitnessState "alice" < 1000 →
      stakeTokens c2WitnessState "alice" 1000 = .error .insufficientBalance)
    ∧ ((1000 : ℚ) ≤ getBalance c2WitnessState "alice" →
        (1000 : ℚ) < c2WitnessState.config.minStake →
        stakeTokens c2WitnessState "alice" 1000 = .error .minStakeNotMet)
    ∧ ((1000 : ℚ) ≤ getBalance c2WitnessState "alice" →
        c2WitnessState.config.minStake ≤ 1000 →
        ∃ st', stakeTokens c2WitnessState "alice" 1000 = .ok st'
          ∧ getBalance st' "alice" = getBalance c2WitnessState "alice" - 1000
          ∧ getStake st' "alice" = getStake c2WitnessState "alice" + 1000
          ∧ (∀ m, m ≠ "alice" → getBalance st' m = getBalance c2WitnessState m)
          ∧ (∀ m, m ≠ "alice" → getStake st' m = getStake c2WitnessState m)
          ∧ st'.transactions = c2WitnessState.transactions ++
              [{ type := .stake, «from» := "alice", «to» := "stake_pool", amount := 1000
                 signature := sign (stakeSignMsg "alice" 1000) c2WitnessState.config.privateKey
                 metadata := none, id := c2WitnessState.nextTxId }]) :=
  c2_stakeTokens_spec c2WitnessState "alice" 1000
    (of_decide_eq_true (by with_unfolding_all rfl))

theorem getBalance_recordTransaction (st : IncentiveState) (tx : Transaction) (n : String) :
    getBalance (recordTransaction st tx) n = getBalance st n := rfl

theorem getStake_recordTransaction (st : IncentiveState) (tx : Transaction) (n : String) :
    getStake (recordTransaction st tx) n = getStake st n := rfl

theorem recordTransaction_transactions_of_le (st : IncentiveState) (tx : Transaction)
    (h : st.transactions.length ≤ 9999) :
    (recordTransaction st tx).transactions
      = st.transactions ++ [{ tx with id := st.nextTxId }] := by
  have hlt : ¬ (10000 < (st.transactions ++ [{ tx with id := st.nextTxId }]).length) := by
    rw [List.length_append, List.length_singleton]
    omega
  simp only [recordTransaction, hlt, if_false]

/-- C4: a successful stake of x immediately followed by an unstake of x
restores every node's balance and stake to the pre-stake values, and the
transaction log gains exactly two new entries, one stake and one
unstake. -/
theorem c4_stake_unstake_roundtrip (st st1 : IncentiveState) (n : String) (x : ℚ)
    (hstake0 : 0 ≤ getStake st n)
    (hlen : st.transactions.length ≤ 9998)
    (hok : stakeTokens st n x = .ok st1) :
    ∃ st2, unstakeTokens st1 n x = .ok st2
      ∧ (∀ m, getBalance st2 m = getBalance st m)
      ∧ (∀ m, getStake st2 m = getStake st m)
      ∧ ∃ t1 t2, st2.transactions = st.transactions ++ [t1, t2]
          ∧ t1.type = .stake ∧ t2.type = .unstake := by
  have h1 : ¬ (getBalance st n < x) := by
    intro h
    rw [stakeTokens, if_pos h] at hok
    simp at hok
  have h2 : ¬ (x < st.config.minStake) := by
    intro h
    rw [stakeTokens, if_neg h1, if_pos h] at hok
    simp at hok
  rw [stakeTokens, if_neg h1, if_neg h2] at hok
  injection hok with hok'
  have hbal : st1.balances = mapSet st.balances n (getBalance st n - x) := by
    rw [← hok']
    rfl
  have hstk : st1.stakes = mapSet st.stakes n (jsOr (getStake st n) 0 + x) := by
    rw [← hok']
    rfl
  have htx : st1.transactions = st.transactions ++
      [{ type := .stake, «from» := n, «to» := "stake_pool", amount := x
         signature := sign (stakeSignMsg n x) st.config.privateKey
         metadata := none, id := st.nextTxId }] := by
    rw [← hok']
    exact recordTransaction_transactions_of_le _ _
      (show st.transactions.length ≤ 9999 by omega)
  have hgs1 : getStake st1 n = getStake st n + x := by
    simp only [getStake, hstk, mapGetD_mapSet_self, jsOr_zero]
  have hgb1 : getBalance st1 n = getBalance st n - x := by
    simp only [getBalance, hbal, mapGetD_mapSet_self, jsOr_zero]
  have hcond : ¬ (getStake st1 n < x) := by
    rw [hgs1]
    intro hc
    have : getStake st n < 0 := by linarith
    linarith
  simp only [unstakeTokens]
  rw [if_neg hcond]
  have hlen2 : st1.transactions.length ≤ 9999 := by
    rw [htx, List.length_append, List.length_singleton]
    omega
  refine ⟨_, rfl, ?_, ?_, ?_⟩
  · intro m
    rw [getBalance_recordTransaction]
    show jsOr (mapGetD (mapSet st1.balances n (getBalance st1 n + x)) m 0) 0
      = getBalance st m
    by_cases hm : m = n
    · subst hm
      rw [mapGetD_mapSet_self, jsOr_zero, hgb1, sub_add_cancel]
    · rw [mapGetD_mapSet_ne _ _ _ _ _ hm, hbal, mapGetD_mapSet_ne _ _ _ _ _ hm]
      rfl
  · intro m
    rw [getStake_recordTransaction]
    show jsOr (mapGetD (mapSet st1.stakes n (getStake st1 n - x)) m 0) 0
      = getStake st m
    by_cases hm : m = n
    · subst hm
      rw [mapGetD_mapSet_self, jsOr_zero, hgs1, add_sub_cancel_right]
    · rw [mapGetD_mapSet_ne _ _ _ _ _ hm, hstk, mapGetD_mapSet_ne _ _ _ _ _ hm]
      rfl
  · refine ⟨{ type := .stake, «from» := n, «to» := "stake_pool", amount := x
              signature := sign (stakeSignMsg n x) st.config.privateKey
              metadata := none, id := st.nextTxId },
            { type := .unstake, «from» := "stake_pool", «to» := n, amount := x
              signature := sign (unstakeSignMsg n x) st1.config.privateKey
              metadata := none, id := st1.nextTxId },
            ?_, rfl, rfl⟩
    have hrec := recordTransaction_transactions_of_le
      { st1 with balances := mapSet st1.balances n (getBalance st1 n + x)
                 stakes := mapSet st1.stakes n (getStake st1 n - x) }
      { type := .unstake, «from» := "stake_pool", «to» := n, amount := x
        signature := sign (unstakeSignMsg n x) st1.config.privateKey
        metadata := none, id := 0 }
      hlen2
    rw [hrec]
    show st1.transactions ++ _ = _
    rw [htx, List.append_assoc]
    rfl

/-- Extract the success value of an Except, with a fallback default. -/
def exceptOkD {ε α : Type} (d : α) : Except ε α → α
  | .ok a => a
  | .error _ => d

instance {ε α : Type} [DecidableEq ε] [DecidableEq α] : DecidableEq (Except ε α) := fun a b =>
  match a, b with
  | .ok x, .ok y =>
    if h : x = y then isTrue (by rw [h]) else isFalse (fun hh => h (Except.ok.inj hh))
  | .error x, .error y =>
    if h : x = y then isTrue (by rw [h]) else isFalse (fun hh => h (Except.error.inj hh))
  | .ok _, .error _ => isFalse (fun hh => Except.noConfusion hh)
  | .error _, .ok _ => isFalse (fun hh => Except.noConfusion hh)

/-- A concrete pre-stake incentive state used as the C4 witness input. -/
def c4WitnessState0 : IncentiveState :=
  { config := { rewardRate := 0.1, minStake := 1000, maxRewardPerDay := 1000
                privateKey := "sk", publicKey := "sk.pub" }
    balances := [("alice", 10000)]
    stakes := [("alice", 0)]
    rewardsLog := []
    transactions := []
    nodePerformance := []
    bandwidthProvided := []
    sessionsServed := []
    nextTxId := 0 }

/-- The state after the witness stake call. -/
def c4WitnessState1 : IncentiveState :=
  exceptOkD c4WitnessState0 (stakeTokens c4WitnessState0 "alice" 1000)

theorem c4_stake_unstake_roundtrip_witness :
    ∃ st2, unstakeTokens c4WitnessState1 "alice" 1000 = .ok st2
      ∧ (∀ m, getBalance st2 m = getBalance c4WitnessState0 m)
      ∧ (∀ m, getStake st2 m = getStake c4WitnessState0 m)
      ∧ ∃ t1 t2, st2.transactions = c4WitnessState0.transactions ++ [t1, t2]
          ∧ t1.type = .stake ∧ t2.type = .unstake :=
  c4_stake_unstake_roundtrip c4WitnessState0 c4WitnessState1 "alice" 1000
    (of_decide_eq_true (by with_unfolding_all rfl))
    (of_decide_eq_true (by with_unfolding_all rfl))
    rfl

theorem distributeReward_preserves (st : IncentiveState) (r : RewardResult) :
    (distributeReward st r).config = st.config
    ∧ (distributeReward st r).stakes = st.stakes
    ∧ (distributeReward st r).bandwidthProvided = st.bandwidthProvided
    ∧ (distributeReward st r).sessionsServed = st.sessionsServed
    ∧ (distributeReward st r).nodePerformance = st.nodePerformance := by
  rw [distributeReward]
  split
  · exact ⟨rfl, rfl, rfl, rfl, rfl⟩
  · exact ⟨rfl, rfl, rfl, rfl, rfl⟩

theorem payLoop_preserves (rs : List RewardResult) (st : IncentiveState) :
    (rs.foldl (fun s r => if 0 < r.amount then distributeReward s r else s) st).config = st.config
    ∧ (rs.foldl (fun s r => if 0 < r.amount then distributeReward s r else s) st).stakes = st.stakes
    ∧ (rs.foldl (fun s r => if 0 < r.amount then distributeReward s r else s) st).bandwidthProvided
        = st.bandwidthProvided
    ∧ (rs.foldl (fun s r => if 0 < r.amount then distributeReward s r else s) st).sessionsServed
        = st.sessionsServed
    ∧ (rs.foldl (fun s r => if 0 < r.amount then distributeReward s r else s) st).nodePerformance
        = st.nodePerformance := by
  induction rs generalizing st with
  | nil => exact ⟨rfl, rfl, rfl, rfl, rfl⟩
  | cons r rest ih =>
    have hstep : (if 0 < r.amount then distributeReward st r else st).config = st.config
        ∧ (if 0 < r.amount then distributeReward st r else st).stakes = st.stakes
        ∧ (if 0 < r.amount then distributeReward st r else st).bandwidthProvided
            = st.bandwidthProvided
        ∧ (if 0 < r.amount then distributeReward st r else st).sessionsServed
            = st.sessionsServed
        ∧ (if 0 < r.amount then distributeReward st r else st).nodePerformance
            = st.nodePerformance := by
      split
      · exact distributeReward_preserves st r
      · exact ⟨rfl, rfl, rfl, rfl, rfl⟩
    obtain ⟨ha, hb, hc, hd, he⟩ := ih (if 0 < r.amount then distributeReward st r else st)
    obtain ⟨sa, sb, sc, sd, se⟩ := hstep
    rw [List.foldl_cons]
    exact ⟨ha.trans sa, hb.trans sb, hc.trans sc, hd.trans sd, he.trans se⟩

theorem calculateRewards_congr (st st' : IncentiveState) (n p : String)
    (hc : st'.config = st.config) (hs : st'.stakes = st.stakes)
    (hb : st'.bandwidthProvided = st.bandwidthProvided)
    (hss : st'.sessionsServed = st.sessionsServed)
    (hp : st'.nodePerformance = st.nodePerformance) :
    calculateRewards st' n p = calculateRewards st n p := by
  simp only [calculateRewards, getStake, hc, hs, hb, hss, hp]

/-- C3 (amended): distribution never consumes or zeroes the accounting
snapshot, so a second distributeRewards run with no intervening
accounting events recomputes exactly the same reward list and
distributes exactly the same total again, rather than zero. -/
theorem c3_distribute_twice_amended (st st1 st2 : IncentiveState) (p : String)
    (r1 r2 : DistributionResult)
    (h1 : distributeRewards st p = .ok (st1, r1))
    (h2 : distributeRewards st1 p = .ok (st2, r2)) :
    r2.rewards = r1.rewards ∧ r2.totalDistributed = r1.totalDistributed := by
  simp only [distributeRewards] at h1 h2
  by_cases hp1 : getBalance st "reward_pool" ≤ 0
  · rw [if_pos hp1] at h1
    simp at h1
  rw [if_neg hp1] at h1
  injection h1 with h1'
  injection h1' with hfst1 hsnd1
  by_cases hp2 : getBalance st1 "reward_pool" ≤ 0
  · rw [if_pos hp2] at h2
    simp at h2
  rw [if_neg hp2] at h2
  injection h2 with h2'
  injection h2' with hfst2 hsnd2
  obtain ⟨hc, hs, hb, hss, hperf⟩ := payLoop_preserves
    ((st.stakes.filter (fun q => decide (st.config.minStake ≤ q.2))).map
      (fun q => calculateRewards st q.1 p)) st
  rw [hfst1] at hc hs hb hss hperf
  have hlist : (st1.stakes.filter (fun q => decide (st1.config.minStake ≤ q.2))).map
      (fun q => calculateRewards st1 q.1 p)
      = (st.stakes.filter (fun q => decide (st.config.minStake ≤ q.2))).map
        (fun q => calculateRewards st q.1 p) := by
    rw [hs, hc]
    exact List.map_congr_left (fun q _ => calculateRewards_congr st st1 q.1 p hc hs hb hss hperf)
  have hr1 : r1.rewards = (st.stakes.filter (fun q => decide (st.config.minStake ≤ q.2))).map
      (fun q => calculateRewards st q.1 p) := by
    rw [← hsnd1]
  have hr2 : r2.rewards = (st1.stakes.filter (fun q => decide (st1.config.minStake ≤ q.2))).map
      (fun q => calculateRewards st1 q.1 p) := by
    rw [← hsnd2]
  have hrw : r2.rewards = r1.rewards := by
    rw [hr1, hr2, hlist]
  refine ⟨hrw, ?_⟩
  have ht1 : r1.totalDistributed = ((r1.rewards).map (fun r => r.amount)).sum := by
    rw [← hsnd1]
  have ht2 : r2.totalDistributed = ((r2.rewards).map (fun r => r.amount)).sum := by
    rw [← hsnd2]
  rw [ht1, ht2, hrw]

/-- A concrete incentive state: one staked node with recorded bandwidth
and perfect uptime, and a funded reward pool. -/
def c3State0 : IncentiveState :=
  { config := { rewardRate := 0.1, minStake := 1000, maxRewardPerDay := 1000
                privateKey := "sk", publicKey := "sk.pub" }
    balances := [("reward_pool", 10000), ("alice", 0)]
    stakes := [("alice", 2000)]
    rewardsLog := []
    transactions := []
    nodePerformance := [("alice", ⟨100, 0, 0⟩)]
    bandwidthProvided := [("alice", 100)]
    sessionsServed := []
    nextTxId := 0 }

/-- State and result after the first distribution run on c3State0. -/
def c3Pair1 : IncentiveState × DistributionResult :=
  exceptOkD (c3State0, { period := "daily", rewards := [], totalDistributed := 0 })
    (distributeRewards c3State0 "daily")

/-- State and result after the second, immediately following run. -/
def c3Pair2 : IncentiveState × DistributionResult :=
  exceptOkD (c3Pair1.1, { period := "daily", rewards := [], totalDistributed := 0 })
    (distributeRewards c3Pair1.1 "daily")

/-- C3 counterexample: with no accounting events between the two runs,
the second distributeRewards run pays alice a further 20 tokens (her
balance goes 0 → 20 → 40) instead of paying zero additional reward; no
snapshot is consumed. -/
theorem c3_counterexample :
    (distributeRewards c3State0 "daily").isOk = true
    ∧ (distributeRewards c3Pair1.1 "daily").isOk = true
    ∧ getBalance c3Pair1.1 "alice" = 20
    ∧ c3Pair2.2.totalDistributed = 20
    ∧ getBalance c3Pair2.1 "alice" = 40 :=
  of_decide_eq_true (by with_unfolding_all rfl)

theorem c3_distribute_twice_amended_witness :
    c3Pair2.2.rewards = c3Pair1.2.rewards
    ∧ c3Pair2.2.totalDistributed = c3Pair1.2.totalDistributed :=
  c3_distribute_twice_amended c3State0 c3Pair1.1 c3Pair2.1 "daily" c3Pair1.2 c3Pair2.2
    (by with_unfolding_all rfl) (by with_unfolding_all rfl)

/-- A concrete incentive state whose configured public key is exactly
the one paired with the coordinator private key. -/
def c5State0 : IncentiveState :=
  { config := { rewardRate := 0.1, minStake := 1000, maxRewardPerDay := 1000
                privateKey := "coordinator-sk", publicKey := pubOfPriv "coordinator-sk" }
    balances := [("alice", 5000)]
    stakes := []
    rewardsLog := []
    transactions := []
    nodePerformance := []
    bandwidthProvided := []
    sessionsServed := []
    nextTxId := 0 }

/-- The state after a successful stake of 1000 by alice. -/
def c5State1 : IncentiveState :=
  exceptOkD c5State0 (stakeTokens c5State0 "alice" 1000)

/-- C5: the stake transaction recorded by stakeTokens("alice", 1000) is
signed over the string alice:1000:stake, while validateTransaction
recomputes alice:stake_pool:1000:stake, so signature verification fails
for the very transaction the system just logged, even though the
configured public key is the one paired with the signing private key.
The claim (every logged transaction verifies) names the intended
behaviour; the code's sign and verify sites disagree on the canonical
bytes, so validation can never succeed. -/
theorem c5_validate_fails_on_own_log :
    (stakeTokens c5State0 "alice" 1000).isOk = true
    ∧ c5State1.transactions.length = 1
    ∧ c5State1.transactions.all (fun tx => !(validateTransaction c5State1 tx)) = true
    ∧ pubOfPriv c5State0.config.privateKey = c5State0.config.publicKey :=
  of_decide_eq_true (by with_unfolding_all rfl)

/-! ### Traffic router (src/routing/router.js) -/

/-- A node's advertised bandwidth profile, as read by the router. -/
structure NodeBandwidth where
  download : ℚ
  latency : ℚ
  uptime : ℚ
deriving DecidableEq, Repr

/-- A discovered network node as returned by getDiscoveredNodes. -/
structure NetworkNode where
  id : String
  isActive : Bool
  region : String
  reputation : ℚ
  bandwidth : NodeBandwidth
deriving DecidableEq, Repr

/-- The four path optimization algorithms. -/
inductive RouteAlgorithm
  | shortestPath
  | lowestLatency
  | highestBandwidth
  | balanced
deriving DecidableEq, Repr

/-- Route requirements; absent JS fields are none. -/
structure RouteRequirements where
  minBandwidth : Option ℚ
  maxLatency : Option ℚ
  regions : Option (List String)
  encryption : Option Bool
  algorithm : Option RouteAlgorithm
deriving DecidableEq, Repr

/-- The empty requirements object. -/
def emptyRequirements : RouteRequirements :=
  { minBandwidth := none, maxLatency := none, regions := none
    encryption := none, algorithm := none }

/-- A route as created by findRoute.  bandwidthUsed starts undefined in
the source and is read back with a zero default, modelled as 0. -/
structure Route where
  id : String
  nodes : List String
  latency : ℚ
  bandwidth : ℚ
  cost : ℚ
  encrypted : Bool
  expiresAt : ℚ
  bandwidthUsed : ℚ
deriving DecidableEq, Repr

/-- A client session bound to a route. -/
structure ClientSession where
  id : String
  clientId : String
  nodeId : String
  startTime : ℚ
  bytesTransferred : ℚ
  isActive : Bool
  route : Route
deriving DecidableEq, Repr

/-- Cache keys: generateCacheKey builds destination:hash(requirements)
from a canonical JSON encoding; the hash is modelled as injective, so a
key is the (destination, requirements) pair itself. -/
abbrev CacheKey := String × RouteRequirements

/-- denotes a failed route lookup (the source throws RouteNotFoundError,
re-wrapped by findRoute's outer catch with the message preserved). -/
inductive RouteError
  | routeNotFound (destination : String)
deriving DecidableEq, Repr

/-- The mutable state of a TrafficRouter instance.  discoveredNodes
stands for the networkManager's current node list, now for the Date
clock and nextRand for the random id generator. -/
structure RouterState where
  activeRoutes : List (String × Route)
  clientSessions : List (String × ClientSession)
  routeCache : List (CacheKey × Route)
  maxCacheSize : ℕ
  routeTimeout : ℚ
  discoveredNodes : List NetworkNode
  now : ℚ
  nextRand : ℕ
deriving DecidableEq, Repr

/-- The value an optimizer returns. -/
structure PathResult where
  nodes : List String
  latency : ℚ
  bandwidth : ℚ
  cost : ℚ
deriving DecidableEq, Repr

/-- JS truthiness of an optional numeric requirement field. -/
def optNumTruthy : Option ℚ → Bool
  | some x => decide (x ≠ 0)
  | none => false

/-- The filter body of getAvailableNodes. -/
def nodePassesFilters (requirements : RouteRequirements) (node : NetworkNode) : Bool :=
  if !node.isActive then false
  else if optNumTruthy requirements.minBandwidth
      && decide (node.bandwidth.download < requirements.minBandwidth.getD 0) then false
  else if optNumTruthy requirements.maxLatency
      && decide (requirements.maxLatency.getD 0 < node.bandwidth.latency) then false
  else if requirements.regions.isSome
      && !((requirements.regions.getD []).contains node.region) then false
  else true

/-- getAvailableNodes. -/
def getAvailableNodes (st : RouterState) (requirements : RouteRequirements) :
    List NetworkNode :=
  st.discoveredNodes.filter (nodePassesFilters requirements)

/-- The balanced score of findBalancedPath.  Every bandwidth field is
read as field || 0, which is the field itself. -/
def balancedScore (node : NetworkNode) : ℚ :=
  let bandwidthScore := node.bandwidth.download / 100
  let latencyScore := 1 - node.bandwidth.latency / 1000
  let reputationScore := node.reputation / 100
  let uptimeScore := node.bandwidth.uptime / 100
  bandwidthScore * 0.4 + latencyScore * 0.3 + reputationScore * 0.2 + uptimeScore * 0.1

/-- Head of a stable descending sort by score: ECMAScript sort is
stable, so sorting descending and taking element 0 yields the first
element attaining the maximal score; later elements replace the current
best only on a strictly greater score. -/
def pickFirstMaxBy {α : Type} (score : α → ℚ) (h : α) (t : List α) : α :=
  t.foldl (fun best cur => if score best < score cur then cur else best) h

/-- Head of a stable ascending sort by score (first minimal element). -/
def pickFirstMinBy {α : Type} (score : α → ℚ) (h : α) (t : List α) : α :=
  t.foldl (fun best cur => if score cur < score best then cur else best) h

/-- The single-hop result built from a winning node (latency || 100 and
download || 10 defaults as in the source). -/
def pathResultOf (bestNode : NetworkNode) : PathResult :=
  { nodes := [bestNode.id]
    latency := jsOr bestNode.bandwidth.latency 100
    bandwidth := jsOr bestNode.bandwidth.download 10
    cost := 1 }

/-- findBalancedPath. -/
def findBalancedPath (availableNodes : List NetworkNode) : Option PathResult :=
  match availableNodes with
  | [] => none
  | h :: t => some (pathResultOf (pickFirstMaxBy balancedScore h t))

/-- The reduce score of findShortestPath: download − latency. -/
def shortestScore (node : NetworkNode) : ℚ :=
  node.bandwidth.download - node.bandwidth.latency

/-- findShortestPath (reduce keeping the earlier node on ties). -/
def findShortestPath (availableNodes : List NetworkNode) : Option PathResult :=
  match availableNodes with
  | [] => none
  | h :: t => some (pathResultOf (pickFirstMaxBy shortestScore h t))

/-- findLowestLatency (stable ascending sort by latency, element 0). -/
def findLowestLatency (availableNodes : List NetworkNode) : Option PathResult :=
  match availableNodes with
  | [] => none
  | h :: t => some (pathResultOf (pickFirstMinBy (fun n => n.bandwidth.latency) h t))

/-- findHighestBandwidth (stable descending sort by download). -/
def findHighestBandwidth (availableNodes : List NetworkNode) : Option PathResult :=
  match availableNodes with
  | [] => none
  | h :: t => some (pathResultOf (pickFirstMaxBy (fun n => n.bandwidth.download) h t))

/-- findOptimalPath: dispatch on requirements.algorithm || 'balanced'. -/
def findOptimalPath (availableNodes : List NetworkNode)
    (requirements : RouteRequirements) : Option PathResult :=
  match requirements.algorithm.getD .balanced with
  | .shortestPath => findShortestPath availableNodes
  | .lowestLatency => findLowestLatency availableNodes
  | .highestBandwidth => findHighestBandwidth availableNodes
  | .balanced => findBalancedPath availableNodes

/-- cacheRoute: when the cache has reached maxCacheSize, delete the
first key in insertion order (keys().next().value), then set. -/
def cacheRoute (st : RouterState) (key : CacheKey) (route : Route) : RouterState :=
  let cache :=
    if st.maxCacheSize ≤ st.routeCache.length then
      match st.routeCache with
      | [] => ([] : List (CacheKey × Route))
      | first :: _ => mapDelete st.routeCache first.1
    else st.routeCache
  { st with routeCache := mapSet cache key route }

/-- The cache-miss path of findRoute: filter candidates, run the
optimizer, build the route, cache it and store it as active. -/
def findRouteUncached (st : RouterState) (destination : String)
    (requirements : RouteRequirements) : RouterState × Except RouteError Route :=
  let availableNodes := getAvailableNodes st requirements
  if availableNodes.length = 0 then (st, .error (.routeNotFound destination))
  else
    match findOptimalPath availableNodes requirements with
    | none => (st, .error (.routeNotFound destination))
    | some optimalPath =>
      let route : Route :=
        { id := toString st.nextRand
          nodes := optimalPath.nodes
          latency := optimalPath.latency
          bandwidth := optimalPath.bandwidth
          cost := optimalPath.cost
          encrypted := !(requirements.encryption == some false)
          expiresAt := st.now + st.routeTimeout
          bandwidthUsed := 0 }
      let st1 := { st with nextRand := st.nextRand + 1 }
      let st2 := cacheRoute st1 (destination, requirements) route
      let st3 := { st2 with activeRoutes := mapSet st2.activeRoutes route.id route }
      (st3, .ok route)

/-- findRoute: a cached unexpired route is returned as is; a cached
expired route is deleted first; otherwise the uncached path runs. -/
def findRoute (st : RouterState) (destination : String)
    (requirements : RouteRequirements) : RouterState × Except RouteError Route :=
  match mapFind? st.routeCache (destination, requirements) with
  | some cachedRoute =>
    if st.now < cachedRoute.expiresAt then (st, .ok cachedRoute)
    else
      findRouteUncached
        { st with routeCache := mapDelete st.routeCache (destination, requirements) }
        destination requirements
  | none => findRouteUncached st destination requirements

/-- cleanupRoute: drop the active route only when it is expired. -/
def cleanupRoute (st : RouterState) (routeId : String) : RouterState :=
  match mapFind? st.activeRoutes routeId with
  | some route =>
    if route.expiresAt < st.now then
      { st with activeRoutes := mapDelete st.activeRoutes routeId }
    else st
  | none => st

/-- closeSession: when the session exists it is deactivated (the flag
write on the removed record is unobservable afterwards), removed from
the table, and its route is offered to cleanupRoute; a missing id is a
silent no-op. -/
def closeSession (st : RouterState) (sessionId : String) : RouterState :=
  match mapFind? st.clientSessions sessionId with
  | some session =>
    cleanupRoute { st with clientSessions := mapDelete st.clientSessions sessionId }
      session.route.id
  | none => st

/-- handlePeerDisconnection: remove every active route whose hop list
contains the peer, then close every session whose route contains it. -/
def handlePeerDisconnection (st : RouterState) (peerId : String) : RouterState :=
  let st1 := { st with activeRoutes :=
    st.activeRoutes.filter (fun q => !(q.2.nodes.contains peerId)) }
  let sessionsToClose := (st1.clientSessions.filter
    (fun q => q.2.route.nodes.contains peerId)).map (fun q => q.1)
  sessionsToClose.foldl closeSession st1

/-! ### Claim theorems for the router -/

/-- C10: closeSession on a session id that is not in the session table
(including an already-closed one) is a silent no-op: it raises no error
and leaves the whole router state, in particular the session table and
the active-route table, unchanged. -/
theorem c10_closeSession_missing_id (st : RouterState) (sessionId : String)
    (h : mapFind? st.clientSessions sessionId = none) :
    closeSession st sessionId = st := by
  rw [closeSession, h]

/-- An empty router state used as witness input. -/
def c10WitnessState : RouterState :=
  { activeRoutes := [], clientSessions := [], routeCache := [], maxCacheSize := 1000
    routeTimeout := 300000, discoveredNodes := [], now := 0, nextRand := 0 }

theorem c10_closeSession_missing_id_witness :
    closeSession c10WitnessState "missing-session" = c10WitnessState :=
  c10_closeSession_missing_id c10WitnessState "missing-session" rfl

theorem mapDelete_of_find?_none {κ α : Type} [DecidableEq κ] (m : List (κ × α)) (k : κ)
    (h : mapFind? m k = none) : mapDelete m k = m := by
  induction m with
  | nil => rfl
  | cons p rest ih =>
    rw [mapFind?] at h
    by_cases hp : p.1 = k
    · rw [if_pos hp] at h
      exact absurd h (by simp)
    · rw [if_neg hp] at h
      simp only [mapDelete, List.filter_cons, decide_eq_true_eq]
      rw [if_pos (by simpa using hp)]
      have := ih h
      rw [mapDelete] at this
      rw [this]

theorem mem_mapDelete {κ α : Type} [DecidableEq κ] (m : List (κ × α)) (k : κ) (q : κ × α) :
    q ∈ mapDelete m k ↔ q ∈ m ∧ q.1 ≠ k := by
  simp [mapDelete, List.mem_filter]

theorem cleanupRoute_clientSessions (st : RouterState) (rid : String) :
    (cleanupRoute st rid).clientSessions = st.clientSessions := by
  rw [cleanupRoute.eq_def]
  split
  · split <;> rfl
  · rfl

theorem closeSession_clientSessions (st : RouterState) (k : String) :
    (closeSession st k).clientSessions = mapDelete st.clientSessions k := by
  rw [closeSession.eq_def]
  split
  next s hs => rw [cleanupRoute_clientSessions]
  next hs => exact (mapDelete_of_find?_none _ _ hs).symm

theorem closeSession_activeRoutes_mem (st : RouterState) (k : String) (q : String × Route)
    (h : q ∈ (closeSession st k).activeRoutes) : q ∈ st.activeRoutes := by
  rw [closeSession.eq_def] at h
  split at h
  next s hs =>
    rw [cleanupRoute.eq_def] at h
    split at h
    next r hr =>
      split at h
      · exact ((mem_mapDelete _ _ _).mp h).1
      · exact h
    next hr => exact h
  next hs => exact h

theorem foldl_closeSession_activeRoutes_mem (L : List String) (st : RouterState)
    (q : String × Route) (h : q ∈ (L.foldl closeSession st).activeRoutes) :
    q ∈ st.activeRoutes := by
  induction L generalizing st with
  | nil => exact h
  | cons k L' ih =>
    rw [List.foldl_cons] at h
    exact closeSession_activeRoutes_mem st k q (ih (closeSession st k) h)

theorem foldl_closeSession_sessions_clean (L : List String) (st : RouterState) (peerId : String)
    (hinv : ∀ q ∈ st.clientSessions, q.2.route.nodes.contains peerId = true → q.1 ∈ L) :
    ∀ q ∈ (L.foldl closeSession st).clientSessions,
      ¬ (q.2.route.nodes.contains peerId = true) := by
  induction L generalizing st with
  | nil =>
    intro q hq hcont
    exact absurd (hinv q hq hcont) (List.not_mem_nil _)
  | cons k L' ih =>
    rw [List.foldl_cons]
    apply ih
    intro q hq hcont
    rw [closeSession_clientSessions] at hq
    obtain ⟨hqm, hqk⟩ := (mem_mapDelete _ _ _).mp hq
    rcases List.mem_cons.mp (hinv q hqm hcont) with h1 | h2
    · exact absurd h1 hqk
    · exact h2

/-- C7: after handlePeerDisconnection, no active route's hop list
contains the dropped peer and no surviving session's route contains it:
every route referencing the peer is removed and every session bound to
such a route is closed (removed from the table). -/
theorem c7_peer_drop_invalidates (st : RouterState) (peerId : String) :
    ((handlePeerDisconnection st peerId).activeRoutes.all
      (fun q => !(q.2.nodes.contains peerId))) = true
    ∧ ((handlePeerDisconnection st peerId).clientSessions.all
      (fun q => !(q.2.route.nodes.contains peerId))) = true := by
  simp only [handlePeerDisconnection]
  constructor
  · rw [List.all_eq_true]
    intro q hq
    have hmem := foldl_closeSession_activeRoutes_mem _ _ q hq
    exact (List.mem_filter.mp hmem).2
  · rw [List.all_eq_true]
    intro q hq
    have hclean := foldl_closeSession_sessions_clean
      ((List.filter (fun q => q.2.route.nodes.contains peerId)
          ({ st with activeRoutes :=
            st.activeRoutes.filter (fun q => !(q.2.nodes.contains peerId)) }
            : RouterState).clientSessions).map (fun q => q.1))
      { st with activeRoutes :=
          st.activeRoutes.filter (fun q => !(q.2.nodes.contains peerId)) }
      peerId
      (fun q hqm hcont => List.mem_map.mpr ⟨q, List.mem_filter.mpr ⟨hqm, hcont⟩, rfl⟩)
      q hq
    simpa using hclean

theorem pickFirstMaxBy_cons {α : Type} (score : α → ℚ) (hd c : α) (t : List α) :
    pickFirstMaxBy score hd (c :: t)
      = pickFirstMaxBy score (if score hd < score c then c else hd) t := by
  rw [pickFirstMaxBy, pickFirstMaxBy, List.foldl_cons]

/-- The fold used by the optimizers returns the first element attaining
the maximal score: it sits in the input list, bounds every score, and
every element strictly before it scores strictly less. -/
theorem pickFirstMaxBy_spec {α : Type} (score : α → ℚ) (hd : α) (t : List α) :
    ∃ l1 l2, hd :: t = l1 ++ pickFirstMaxBy score hd t :: l2
      ∧ (∀ u ∈ hd :: t, score u ≤ score (pickFirstMaxBy score hd t))
      ∧ (∀ u ∈ l1, score u < score (pickFirstMaxBy score hd t)) := by
  induction t generalizing hd with
  | nil =>
    refine ⟨[], [], rfl, ?_, ?_⟩
    · intro u hu
      rw [List.mem_singleton] at hu
      subst hu
      exact le_refl _
    · intro u hu
      exact absurd hu (List.not_mem_nil u)
  | cons c t' ih =>
    rw [pickFirstMaxBy_cons]
    by_cases hlt : score hd < score c
    · rw [if_pos hlt]
      obtain ⟨l1, l2, hdec, hmax, hstrict⟩ := ih c
      refine ⟨hd :: l1, l2, ?_, ?_, ?_⟩
      · rw [List.cons_append, ← hdec]
      · intro u hu
        rcases List.mem_cons.mp hu with rfl | hu'
        · exact le_of_lt (lt_of_lt_of_le hlt (hmax c (List.mem_cons_self c t')))
        · exact hmax u hu'
      · intro u hu
        rcases List.mem_cons.mp hu with rfl | hu'
        · exact lt_of_lt_of_le hlt (hmax c (List.mem_cons_self c t'))
        · exact hstrict u hu'
    · rw [if_neg hlt]
      obtain ⟨l1, l2, hdec, hmax, hstrict⟩ := ih hd
      cases l1 with
      | nil =>
        rw [List.nil_append] at hdec
        injection hdec with h1 h2
        refine ⟨[], c :: t', ?_, ?_, ?_⟩
        · rw [List.nil_append, ← h1]
        · intro u hu
          rcases List.mem_cons.mp hu with rfl | hu'
          · exact hmax u (List.mem_cons_self u t')
          · rcases List.mem_cons.mp hu' with rfl | hu''
            · exact le_trans (le_of_not_lt hlt) (hmax hd (List.mem_cons_self hd t'))
            · exact hmax u (List.mem_cons_of_mem hd hu'')
        · intro u hu
          exact absurd hu (List.not_mem_nil u)
      | cons a l1' =>
        rw [List.cons_append] at hdec
        injection hdec with h1 h2
        have hmem : hd ∈ a :: l1' := by
          rw [h1]
          exact List.mem_cons_self a l1'
        refine ⟨hd :: c :: l1', l2, ?_, ?_, ?_⟩
        · rw [List.cons_append, List.cons_append, ← h2]
        · intro u hu
          rcases List.mem_cons.mp hu with rfl | hu'
          · exact hmax u (List.mem_cons_self u t')
          · rcases List.mem_cons.mp hu' with rfl | hu''
            · exact le_trans (le_of_not_lt hlt) (hmax hd (List.mem_cons_self hd t'))
            · exact hmax u (List.mem_cons_of_mem hd hu'')
        · intro u hu
          rcases List.mem_cons.mp hu with rfl | hu'
          · exact hstrict u hmem
          · rcases List.mem_cons.mp hu' with rfl | hu''
            · exact lt_of_le_of_lt (le_of_not_lt hlt) (hstrict hd hmem)
            · exact hstrict u (List.mem_cons_of_mem a hu'')

/-- C6 (amended): on a non-empty candidate list, findBalancedPath
returns a single-hop route through the first candidate attaining the
maximal uncapped balanced score (0.4·download/100 + 0.3·(1 −
latency/1000) + 0.2·reputation/100 + 0.1·uptime/100): the winner bounds
every candidate's score and strictly beats every candidate listed
before it, so ties break by candidate order, not by NodeId; the route
reports the winner's latency (or 100 if zero) and download (or 10 if
zero). -/
theorem c6_balanced_amended (hd : NetworkNode) (tl : List NetworkNode) :
    ∃ w l1 l2,
      findBalancedPath (hd :: tl) = some (pathResultOf w)
      ∧ hd :: tl = l1 ++ w :: l2
      ∧ (∀ u ∈ hd :: tl, balancedScore u ≤ balancedScore w)
      ∧ (∀ u ∈ l1, balancedScore u < balancedScore w) := by
  obtain ⟨l1, l2, hdec, hmax, hstrict⟩ := pickFirstMaxBy_spec balancedScore hd tl
  exact ⟨pickFirstMaxBy balancedScore hd tl, l1, l2, rfl, hdec, hmax, hstrict⟩

/-- Candidate with a huge download and the maximal penalized latency. -/
def c6NodeA : NetworkNode :=
  { id := "a", isActive := true, region := "eu", reputation := 0
    bandwidth := { download := 500, latency := 1000, uptime := 0 } }

/-- Candidate with a modest download and zero latency. -/
def c6NodeB : NetworkNode :=
  { id := "b", isActive := true, region := "eu", reputation := 0
    bandwidth := { download := 100, latency := 0, uptime := 0 } }

/-- The score the claim prescribes, following the spec's words: bw_norm
= bandwidth/100 capped at 1 and lat_norm = latency/1000 capped at 1
(reputation and uptime are zero for both counterexample candidates, so
every reading of their normalization agrees). -/
def specBalancedScore (node : NetworkNode) : ℚ :=
  0.4 * mathMin (node.bandwidth.download / 100) 1
  + 0.3 * (1 - mathMin (node.bandwidth.latency / 1000) 1)
  + 0.2 * (node.reputation / 100) + 0.1 * (node.bandwidth.uptime / 100)

/-- C6 counterexample: with candidates a and b, the code routes through
a (uncapped score 2.0 versus 0.7) although under the claim's capped
normalization b scores strictly higher (0.7 versus 0.4), so the claim's
asserted winner is not returned. -/
theorem c6_counterexample :
    (findBalancedPath [c6NodeA, c6NodeB]).map (fun p => p.nodes) = some [c6NodeA.id]
    ∧ specBalancedScore c6NodeA < specBalancedScore c6NodeB
    ∧ c6NodeA.id ≠ c6NodeB.id :=
  of_decide_eq_true (by with_unfolding_all rfl)

theorem c6_balanced_amended_witness :
    ∃ w l1 l2,
      findBalancedPath [c6NodeA, c6NodeB] = some (pathResultOf w)
      ∧ [c6NodeA, c6NodeB] = l1 ++ w :: l2
      ∧ (∀ u ∈ [c6NodeA, c6NodeB], balancedScore u ≤ balancedScore w)
      ∧ (∀ u ∈ l1, balancedScore u < balancedScore w) :=
  c6_balanced_amended c6NodeA [c6NodeB]

/-- A route sitting in the cache, not yet expired at time 0. -/
def c8CachedRoute : Route :=
  { id := "r1", nodes := ["n1"], latency := 50, bandwidth := 100, cost := 1
    encrypted := true, expiresAt := 1000, bandwidthUsed := 0 }

/-- A router state with no discovered nodes but a warm cache entry. -/
def c8State0 : RouterState :=
  { activeRoutes := [], clientSessions := []
    routeCache := [(("d1", emptyRequirements), c8CachedRoute)]
    maxCacheSize := 1000, routeTimeout := 300000
    discoveredNodes := [], now := 0, nextRand := 0 }

/-- C8 counterexample: with an empty active candidate set but an
unexpired cached entry for the key, findRoute returns the cached route
instead of failing with the route-not-found error. -/
theorem c8_counterexample :
    getAvailableNodes c8State0 emptyRequirements = []
    ∧ (findRoute c8State0 "d1" emptyRequirements).2 = .ok c8CachedRoute :=
  of_decide_eq_true (by with_unfolding_all rfl)

/-- C8 (amended): when the active candidate set is empty and the cache
holds no unexpired entry for (destination, requirements), findRoute
fails with the route-not-found error (surfaced by the source wrapped as
ROUTE_FINDING_ERROR with the message preserved); no route is created,
cached, or added to the active-route table — the only state change is
the deletion of an expired cache entry for that key, if present. -/
theorem c8_notfound_amended (st : RouterState) (d : String) (req : RouteRequirements)
    (hempty : getAvailableNodes st req = [])
    (hcache : ∀ r, mapFind? st.routeCache (d, req) = some r → r.expiresAt ≤ st.now) :
    findRoute st d req
      = ({ st with routeCache := mapDelete st.routeCache (d, req) },
         .error (.routeNotFound d)) := by
  have huncached : ∀ st' : RouterState, getAvailableNodes st' req = [] →
      findRouteUncached st' d req = (st', .error (.routeNotFound d)) := by
    intro st' h
    rw [findRouteUncached, h]
    rfl
  rw [findRoute.eq_def]
  split
  next cachedRoute heq =>
    rw [if_neg (not_lt.mpr (hcache cachedRoute heq))]
    exact huncached _ hempty
  next heq =>
    rw [mapDelete_of_find?_none _ _ heq]
    exact huncached st hempty

theorem c8_notfound_amended_witness :
    findRoute c10WitnessState "d1" emptyRequirements
      = ({ c10WitnessState with
            routeCache := mapDelete c10WitnessState.routeCache ("d1", emptyRequirements) },
         .error (.routeNotFound "d1")) :=
  c8_notfound_amended c10WitnessState "d1" emptyRequirements rfl
    (fun _ h => nomatch h)

/-- The router state after a sequence of findRoute calls. -/
def applyFindRoutes (st : RouterState) (calls : List (String × RouteRequirements)) :
    RouterState :=
  calls.foldl (fun s c => (findRoute s c.1 c.2).1) st

theorem applyFindRoutes_cons (st : RouterState) (c : String × RouteRequirements)
    (rest : List (String × RouteRequirements)) :
    applyFindRoutes st (c :: rest) = applyFindRoutes (findRoute st c.1 c.2).1 rest := by
  rw [applyFindRoutes, applyFindRoutes, List.foldl_cons]

theorem length_mapSet_le {κ α : Type} [DecidableEq κ] (m : List (κ × α)) (k : κ) (v : α) :
    (mapSet m k v).length ≤ m.length + 1 := by
  induction m with
  | nil => simp [mapSet]
  | cons p rest ih =>
    rw [mapSet]
    split
    · simp
    · simpa using Nat.succ_le_succ ih

theorem length_mapDelete_head {κ α : Type} [DecidableEq κ] (p : κ × α) (rest : List (κ × α)) :
    (mapDelete (p :: rest) p.1).length ≤ rest.length := by
  rw [mapDelete, List.filter_cons]
  rw [if_neg (by simp)]
  exact List.length_filter_le _ _

theorem cacheRoute_length_le (st : RouterState) (key : CacheKey) (route : Route)
    (hmax : 0 < st.maxCacheSize) (hlen : st.routeCache.length ≤ st.maxCacheSize) :
    (cacheRoute st key route).routeCache.length ≤ st.maxCacheSize := by
  simp only [cacheRoute]
  split
  · split
    next heq => simpa [mapSet] using hmax
    next first rest heq =>
      rw [heq]
      calc (mapSet (mapDelete (first :: rest) first.1) key route).length
          ≤ (mapDelete (first :: rest) first.1).length + 1 := length_mapSet_le _ _ _
        _ ≤ rest.length + 1 := Nat.succ_le_succ (length_mapDelete_head _ _)
        _ ≤ st.maxCacheSize := by
            rw [heq] at hlen
            simpa using hlen
  next h =>
    calc (mapSet st.routeCache key route).length
        ≤ st.routeCache.length + 1 := length_mapSet_le _ _ _
      _ ≤ st.maxCacheSize := Nat.succ_le_of_lt (Nat.lt_of_not_le h)

theorem findRouteUncached_cache_invariant (st : RouterState) (d : String)
    (req : RouteRequirements) (hmax : 0 < st.maxCacheSize)
    (hlen : st.routeCache.length ≤ st.maxCacheSize) :
    (findRouteUncached st d req).1.routeCache.length ≤ st.maxCacheSize
    ∧ (findRouteUncached st d req).1.maxCacheSize = st.maxCacheSize := by
  simp only [findRouteUncached]
  split
  · exact ⟨hlen, rfl⟩
  · split
    · exact ⟨hlen, rfl⟩
    · constructor
      · apply cacheRoute_length_le
        · exact hmax
        · exact hlen
      · rfl

theorem findRoute_cache_invariant (st : RouterState) (d : String) (req : RouteRequirements)
    (hmax : 0 < st.maxCacheSize) (hlen : st.routeCache.length ≤ st.maxCacheSize) :
    (findRoute st d req).1.routeCache.length ≤ st.maxCacheSize
    ∧ (findRoute st d req).1.maxCacheSize = st.maxCacheSize := by
  rw [findRoute.eq_def]
  split
  next cachedRoute heq =>
    split
    · exact ⟨hlen, rfl⟩
    · exact findRouteUncached_cache_invariant _ d req hmax
        (le_trans (List.length_filter_le _ _) hlen)
  next heq => exact findRouteUncached_cache_invariant st d req hmax hlen

theorem applyFindRoutes_cache_invariant (calls : List (String × RouteRequirements))
    (st : RouterState) (hmax : 0 < st.maxCacheSize)
    (hlen : st.routeCache.length ≤ st.maxCacheSize) :
    (applyFindRoutes st calls).routeCache.length ≤ st.maxCacheSize
    ∧ (applyFindRoutes st calls).maxCacheSize = st.maxCacheSize := by
  induction calls generalizing st with
  | nil => exact ⟨hlen, rfl⟩
  | cons c rest ih =>
    obtain ⟨hstep1, hstep2⟩ := findRoute_cache_invariant st c.1 c.2 hmax hlen
    obtain ⟨ha, hb⟩ := ih (findRoute st c.1 c.2).1
      (by rw [hstep2]; exact hmax) (by rw [hstep2]; exact hstep1)
    rw [applyFindRoutes_cons]
    exact ⟨le_of_le_of_eq ha hstep2, hb.trans hstep2⟩

theorem mapSet_of_find?_none {κ α : Type} [DecidableEq κ] (m : List (κ × α)) (k : κ) (v : α)
    (h : mapFind? m k = none) : mapSet m k v = m ++ [(k, v)] := by
  induction m with
  | nil => rfl
  | cons p rest ih =>
    rw [mapFind?] at h
    by_cases hp : p.1 = k
    · rw [if_pos hp] at h
      exact absurd h (by simp)
    · rw [if_neg hp] at h
      rw [mapSet, if_neg hp, ih h, List.cons_append]

theorem mapDelete_cons_head {κ α : Type} [DecidableEq κ] (first : κ × α)
    (rest : List (κ × α)) (hnodup : ((first :: rest).map Prod.fst).Nodup) :
    mapDelete (first :: rest) first.1 = rest := by
  rw [mapDelete, List.filter_cons]
  rw [if_neg (by simp)]
  apply List.filter_eq_self.mpr
  intro q hq
  have hnotmem : first.1 ∉ rest.map Prod.fst := by
    rw [List.map_cons] at hnodup
    exact (List.nodup_cons.mp hnodup).1
  simp only [decide_eq_true_eq]
  intro hcontra
  exact hnotmem (hcontra ▸ List.mem_map_of_mem Prod.fst hq)

/-- C9 (amended): the route cache never exceeds the maximum size across
any sequence of findRoute calls (the maximum is the hard-coded field
maxCacheSize = 1000, not a configuration option), but eviction is
insertion-order FIFO, not LRU: an insertion at capacity always evicts
the first-inserted entry, lookups never refresh an entry's position,
and a cache hit returns the cached route with the state unchanged
(without invoking the optimizer). -/
theorem c9_cache_amended (st : RouterState)
    (hmax : 0 < st.maxCacheSize) (hlen : st.routeCache.length ≤ st.maxCacheSize)
    (hnodup : (st.routeCache.map Prod.fst).Nodup) :
    (∀ calls, (applyFindRoutes st calls).routeCache.length ≤ st.maxCacheSize)
    ∧ (∀ key route first rest, st.routeCache = first :: rest →
        st.maxCacheSize ≤ st.routeCache.length →
        mapFind? st.routeCache key = none →
        (cacheRoute st key route).routeCache = rest ++ [(key, route)])
    ∧ (∀ d req r, mapFind? st.routeCache (d, req) = some r → st.now < r.expiresAt →
        findRoute st d req = (st, .ok r)) := by
  refine ⟨?_, ?_, ?_⟩
  · intro calls
    exact (applyFindRoutes_cache_invariant calls st hmax hlen).1
  · intro key route first rest hc hfull hfresh
    simp only [cacheRoute]
    rw [if_pos hfull, hc]
    show mapSet (mapDelete (first :: rest) first.1) key route = rest ++ [(key, route)]
    rw [mapDelete_cons_head first rest (hc ▸ hnodup)]
    apply mapSet_of_find?_none
    rw [hc, mapFind?] at hfresh
    by_cases hfk : first.1 = key
    · rw [if_pos hfk] at hfresh
      exact absurd hfresh (by simp)
    · rw [if_neg hfk] at hfresh
      exact hfresh
  · intro d req r hfind hfreshtime
    simp only [findRoute, hfind]
    rw [if_pos hfreshtime]

/-- The single active node used by the C9 cache scenario. -/
def c9Node : NetworkNode :=
  { id := "n1", isActive := true, region := "eu", reputation := 50
    bandwidth := { download := 100, latency := 50, uptime := 99 } }

/-- Scenario start: empty cache with capacity 2 (the maxCacheSize field
set to 2, mirroring the claim's configured maximum). -/
def c9State0 : RouterState :=
  { activeRoutes := [], clientSessions := [], routeCache := []
    maxCacheSize := 2, routeTimeout := 300000
    discoveredNodes := [c9Node], now := 0, nextRand := 0 }

/-- After inserting key d1. -/
def c9StateA : RouterState := (findRoute c9State0 "d1" emptyRequirements).1

/-- After inserting key d2. -/
def c9StateB : RouterState := (findRoute c9StateA "d2" emptyRequirements).1

/-- After a repeat lookup of d1 (a cache hit). -/
def c9StateC : RouterState := (findRoute c9StateB "d1" emptyRequirements).1

/-- After inserting key d3 at capacity. -/
def c9StateD : RouterState := (findRoute c9StateC "d3" emptyRequirements).1

/-- C9 counterexample: with capacity 2 and cache (d1, d2), a lookup of
d1 is a hit that leaves the state unchanged, so d1 is the most recently
used and d2 the least recently used entry; yet the subsequent insert of
d3 evicts d1 and keeps d2, so the evicted entry is not the least
recently used one. -/
theorem c9_counterexample :
    c9StateC = c9StateB
    ∧ (mapFind? c9StateB.routeCache ("d1", emptyRequirements)).isSome = true
    ∧ mapFind? c9StateD.routeCache ("d1", emptyRequirements) = none
    ∧ (mapFind? c9StateD.routeCache ("d2", emptyRequirements)).isSome = true
    ∧ c9StateD.routeCache.length = 2 :=
  ⟨by with_unfolding_all rfl, by with_unfolding_all rfl, by with_unfolding_all rfl,
   by with_unfolding_all rfl, by with_unfolding_all rfl⟩

/-- A cached route used by the C9 witness state. -/
def c9CachedRoute : Route :=
  { id := "r9", nodes := ["n1"], latency := 50, bandwidth := 100, cost := 1
    encrypted := true, expiresAt := 1000, bandwidthUsed := 0 }

/-- A router state with one cached entry and capacity 2. -/
def c9WitnessState : RouterState :=
  { activeRoutes := [], clientSessions := []
    routeCache := [(("k1", emptyRequirements), c9CachedRoute)]
    maxCacheSize := 2, routeTimeout := 300000
    discoveredNodes := [], now := 0, nextRand := 0 }

theorem c9_cache_amended_witness :
    (∀ calls, (applyFindRoutes c9WitnessState calls).routeCache.length
        ≤ c9WitnessState.maxCacheSize)
    ∧ (∀ key route first rest, c9WitnessState.routeCache = first :: rest →
        c9WitnessState.maxCacheSize ≤ c9WitnessState.routeCache.length →
        mapFind? c9WitnessState.routeCache key = none →
        (cacheRoute c9WitnessState key route).routeCache = rest ++ [(key, route)])
    ∧ (∀ d req r, mapFind? c9WitnessState.routeCache (d, req) = some r →
        c9WitnessState.now < r.expiresAt →
        findRoute c9WitnessState d req = (c9WitnessState, .ok r)) :=
  c9_cache_amended c9WitnessState
    (of_decide_eq_true (by with_unfolding_all rfl))
    (of_decide_eq_true (by with_unfolding_all rfl))
    (of_decide_eq_true (by with_unfolding_all rfl))

end NetworkNeuron
